import Mathlib

/-!
Verification of the OmniFolio PDF-generation scripts
(`generate-omnifolio-pdf.py` and `generate-storage-report.py`).

The custom reportlab flowables and table builders of the two scripts are
shallowly embedded here.  Numeric values manipulated by the Python code are
modelled as exact rationals (the float literals 1.8, 0.7, 0.38 … of the source
become the exact rationals 9/5, 7/10, 19/50 …).  Python colour objects,
labels and fonts are carried as plain strings.  A Python constructor or method
that can raise is embedded as a function into `Except String _`; one whose
body contains no `raise` and no failing operation is a total function whose
`Except` embedding always returns `Except.ok`.
-/

namespace Omnifolio

/-- Python `int()` applied to an exact numeric value: truncation toward zero. -/
def pyTrunc (q : ℚ) : ℤ := if 0 ≤ q then ⌊q⌋ else ⌈q⌉

/-- Ambient state visible to `draw` methods.  The scripts read exactly one
piece of ambient state while drawing: the current date
(`datetime.date.today()` in `HeroHeader.draw`, `datetime.now()` in the
storage report), modelled as the `today` field. -/
structure DrawEnv where
  today : String
deriving DecidableEq

/- ── ScoreGauge (generate-omnifolio-pdf.py, lines 186-223) ──────────────── -/

/-- Fields stored by `ScoreGauge.__init__`. -/
structure ScoreGauge where
  score : ℚ
  label : String
  color : String
  size : ℚ
deriving DecidableEq

/-- `ScoreGauge.__init__`: the body only assigns the four fields; it contains
no validation and no `raise`, so the embedded constructor never errors. -/
def ScoreGauge.init (score : ℚ) (label color : String) (size : ℚ) :
    Except String ScoreGauge :=
  Except.ok ⟨score, label, color, size⟩

/-- `ScoreGauge.wrap(self, *args)`: returns `(self.size, self.size * 0.7)`,
reading only constructor-assigned fields and writing nothing; the returned
state is the unchanged flowable. -/
def ScoreGauge.wrapM (g : ScoreGauge) (_args : List ℚ) : (ℚ × ℚ) × ScoreGauge :=
  ((g.size, g.size * (7 / 10)), g)

/-- The filled-arc sweep computed in `ScoreGauge.draw`:
`angle = int(self.score * 1.8)`. -/
def ScoreGauge.sweepAngle (g : ScoreGauge) : ℤ := pyTrunc (g.score * (9 / 5))

/-- `ScoreGauge.draw` emits the filled arc only under `if angle > 0`
(the background track is always drawn). -/
def ScoreGauge.drawsFilledArc (g : ScoreGauge) : Bool := decide (0 < g.sweepAngle)

/-- Observable output of `ScoreGauge.draw`: arc sweep, whether the filled arc
is emitted, the score text and the label text.  No ambient state is read. -/
def ScoreGauge.drawOutput (g : ScoreGauge) (_env : DrawEnv) : ℤ × Bool × String :=
  (g.sweepAngle, g.drawsFilledArc, g.label)

/- ── HeroHeader (generate-omnifolio-pdf.py, lines 55-137) ───────────────── -/

/-- Fields stored by `HeroHeader.__init__` (`self.height` is the constant 200). -/
structure HeroHeader where
  width : ℚ
deriving DecidableEq

/-- `HeroHeader.wrap(self, *args)`: returns `(self.width, self.height)` with
`self.height = 200`. -/
def HeroHeader.wrapM (hh : HeroHeader) (_args : List ℚ) : (ℚ × ℚ) × HeroHeader :=
  ((hh.width, 200), hh)

/-- The text runs emitted by `HeroHeader.draw`, in drawing order.  The date
run is `datetime.date.today().strftime('%B %d, %Y')`: it comes from the
ambient environment, not from any constructor input. -/
def HeroHeader.drawStrings (_hh : HeroHeader) (env : DrawEnv) : List String :=
  ["OMNI", "FOLIO",
   "Proprietary Intelligence Platform  ·  Copyright OmniFolio. All rights reserved.",
   "Proprietary Intelligence Services",
   "Technical Overview  ·  Architecture, Scoring Algorithms & Data Pipelines",
   env.today,
   "6  Proprietary Services", "0  Third-Party APIs", "100%  Public Data Sources"]

/- ── SectionBanner (generate-omnifolio-pdf.py, lines 140-183) ───────────── -/

/-- Fields stored by `SectionBanner.__init__` (`self.height` is the constant 54). -/
structure SectionBanner where
  width : ℚ
  number : String
  title : String
  subtitle : String
  accent : String
deriving DecidableEq

/-- `SectionBanner.wrap(self, *args)`: returns `(self.width, self.height)`
with `self.height = 54`. -/
def SectionBanner.wrapM (s : SectionBanner) (_args : List ℚ) : (ℚ × ℚ) × SectionBanner :=
  ((s.width, 54), s)

/-- Observable output of `SectionBanner.draw`: the number badge, title and
subtitle text runs.  No ambient state is read. -/
def SectionBanner.drawOutput (s : SectionBanner) (_env : DrawEnv) :
    String × String × String :=
  (s.number, s.title, s.subtitle)

/- ── ColoredRect (generate-omnifolio-pdf.py, lines 44-52) ───────────────── -/

/-- Fields stored by `ColoredRect.__init__`. -/
structure ColoredRect where
  w : ℚ
  h : ℚ
  color : String
  radius : ℚ
deriving DecidableEq

/-- `ColoredRect.wrap(self, *args)`: returns `(self.w, self.h)`. -/
def ColoredRect.wrapM (r : ColoredRect) (_args : List ℚ) : (ℚ × ℚ) × ColoredRect :=
  ((r.w, r.h), r)

/-- Observable output of `ColoredRect.draw`: the rounded rectangle it fills. -/
def ColoredRect.drawOutput (r : ColoredRect) (_env : DrawEnv) : ℚ × ℚ × String × ℚ :=
  (r.w, r.h, r.color, r.radius)

/- ── DataFlowDiagram (generate-omnifolio-pdf.py, lines 226-282) ─────────── -/

/-- Fields stored by `DataFlowDiagram.__init__` (`self.height` is the
constant 64); each step is an `(icon, label)` pair. -/
structure DataFlowDiagram where
  width : ℚ
  steps : List (String × String)
  accent : String
deriving DecidableEq

/-- The fixed box width `box_w = 90` used by `DataFlowDiagram.draw`. -/
def boxW : ℚ := 90

/-- The fixed box height `box_h = 40` used by `DataFlowDiagram.draw`. -/
def boxH : ℚ := 40

/-- `DataFlowDiagram.wrap(self, *args)`: returns `(self.width, self.height)`
with `self.height = 64`. -/
def DataFlowDiagram.wrapM (d : DataFlowDiagram) (_args : List ℚ) :
    (ℚ × ℚ) × DataFlowDiagram :=
  ((d.width, 64), d)

/-- The gap computed in `DataFlowDiagram.draw`:
`gap = (self.width - n * box_w) / (n + 1)`. -/
def DataFlowDiagram.gap (d : DataFlowDiagram) : ℚ :=
  (d.width - d.steps.length * boxW) / (d.steps.length + 1)

/-- Horizontal position of box `i` in `DataFlowDiagram.draw`:
`bx = gap + i * (box_w + gap)`. -/
def DataFlowDiagram.boxX (d : DataFlowDiagram) (i : ℕ) : ℚ :=
  d.gap + i * (boxW + d.gap)

/-- The arrow guard of `DataFlowDiagram.draw`: an arrow is emitted for step
`i` exactly under `if i < n - 1` (Python integer arithmetic). -/
def DataFlowDiagram.drawsArrow (d : DataFlowDiagram) (i : ℕ) : Bool :=
  decide ((i : ℤ) < (d.steps.length : ℤ) - 1)

/-- The step indices of the loop in `DataFlowDiagram.draw` that actually emit
an arrow. -/
def DataFlowDiagram.arrowIndices (d : DataFlowDiagram) : List ℕ :=
  (List.range d.steps.length).filter (fun i => d.drawsArrow i)

/-- Observable output of `DataFlowDiagram.draw`: box geometry and arrow set.
No ambient state is read. -/
def DataFlowDiagram.drawOutput (d : DataFlowDiagram) (_env : DrawEnv) :
    ℚ × List (ℚ × ℚ) × List ℕ :=
  (d.gap, (List.range d.steps.length).map (fun i => (d.boxX i, boxW)), d.arrowIndices)

/- ── ScoreBreakdownBar (generate-omnifolio-pdf.py, lines 285-318) ───────── -/

/-- Fields stored by `ScoreBreakdownBar.__init__` (`self.height` is the
constant 32); each component is a `(label, weight, color)` triple. -/
structure ScoreBreakdownBar where
  width : ℚ
  components : List (String × ℚ × String)
deriving DecidableEq

/-- `ScoreBreakdownBar.__init__`: the body only assigns `width`, `height`
and `components`; it contains no validation and no `raise`, so the embedded
constructor never errors. -/
def ScoreBreakdownBar.init (width : ℚ) (comps : List (String × ℚ × String)) :
    Except String ScoreBreakdownBar :=
  Except.ok ⟨width, comps⟩

/-- `ScoreBreakdownBar.wrap(self, *args)`: returns `(self.width, self.height)`
with `self.height = 32`. -/
def ScoreBreakdownBar.wrapM (b : ScoreBreakdownBar) (_args : List ℚ) :
    (ℚ × ℚ) × ScoreBreakdownBar :=
  ((b.width, 32), b)

/-- The weight of a `(label, weight, color)` component. -/
def compWeight (c : String × ℚ × String) : ℚ := c.2.1

/-- `total = sum(w for _, w, _ in self.components)` from
`ScoreBreakdownBar.draw`. -/
def sumWeights (comps : List (String × ℚ × String)) : ℚ := (comps.map compWeight).sum

/-- The segment loop of `ScoreBreakdownBar.draw`: the cursor `x` starts at 0;
each component computes `seg_w = (weight / total) * self.width` (raising
`ZeroDivisionError` when `total` is 0, as Python division does), draws a
rounded rect of width `seg_w - 1` at `x`, then advances `x` by `seg_w`.
Returns the `(x, drawn width)` rectangles in drawing order. -/
def segRectsAux (width total : ℚ) (x : ℚ) :
    List (String × ℚ × String) → Except String (List (ℚ × ℚ))
  | [] => Except.ok []
  | c :: rest =>
    if total = 0 then Except.error "ZeroDivisionError"
    else
      match segRectsAux width total (x + compWeight c / total * width) rest with
      | Except.ok tail => Except.ok ((x, compWeight c / total * width - 1) :: tail)
      | Except.error e => Except.error e

/-- The bar segments emitted by `ScoreBreakdownBar.draw`. -/
def ScoreBreakdownBar.segRects (b : ScoreBreakdownBar) : Except String (List (ℚ × ℚ)) :=
  segRectsAux b.width (sumWeights b.components) 0 b.components

/-- The legend loop of `ScoreBreakdownBar.draw`: the cursor `lx` starts at 0
and is advanced by `self.width / len(self.components)` after every swatch.
Returns the swatch x positions in drawing order. -/
def legendXsAux (step : ℚ) (lx : ℚ) : List (String × ℚ × String) → List ℚ
  | [] => []
  | _ :: rest => lx :: legendXsAux step (lx + step) rest

/-- The legend swatch positions emitted by `ScoreBreakdownBar.draw`. -/
def ScoreBreakdownBar.legendXs (b : ScoreBreakdownBar) : List ℚ :=
  legendXsAux (b.width / b.components.length) 0 b.components

/-- Observable output of `ScoreBreakdownBar.draw`: the segment rectangles and
the legend swatch positions.  No ambient state is read. -/
def ScoreBreakdownBar.drawOutput (b : ScoreBreakdownBar) (_env : DrawEnv) :
    Except String (List (ℚ × ℚ)) × List ℚ :=
  (b.segRects, b.legendXs)

/-- Segment layout exactly as the specification words it: item `i` is given
the proportional width `weight_i / total × width` minus the fixed 1-unit
inter-segment gap, and is placed directly after the full proportional widths
of the items before it. -/
def specSegs (width total : ℚ) : ℚ → List (String × ℚ × String) → List (ℚ × ℚ)
  | _, [] => []
  | x, c :: rest =>
    (x, compWeight c / total * width - 1) ::
      specSegs width total (x + compWeight c / total * width) rest

/- ── FeatureGrid (generate-omnifolio-pdf.py, lines 321-361) ─────────────── -/

/-- Fields stored by `FeatureGrid.__init__`; each feature is a
`(title, description)` pair. -/
structure FeatureGrid where
  width : ℚ
  features : List (String × String)
  accent : String
deriving DecidableEq

/-- `rows = math.ceil(len(features) / 2)` from `FeatureGrid.__init__`,
as natural-number arithmetic. -/
def FeatureGrid.rowCount (g : FeatureGrid) : ℕ := (g.features.length + 1) / 2

/-- `self.height = rows * 36 + 4` from `FeatureGrid.__init__`. -/
def FeatureGrid.height (g : FeatureGrid) : ℚ := g.rowCount * 36 + 4

/-- `FeatureGrid.wrap(self, *args)`: returns `(self.width, self.height)`. -/
def FeatureGrid.wrapM (g : FeatureGrid) (_args : List ℚ) : (ℚ × ℚ) × FeatureGrid :=
  ((g.width, g.height), g)

/-- `col_w = (self.width - 8) / 2` from `FeatureGrid.draw`. -/
def FeatureGrid.colW (g : FeatureGrid) : ℚ := (g.width - 8) / 2

/-- `col = i % 2` from `FeatureGrid.draw`. -/
def FeatureGrid.cellCol (i : ℕ) : ℕ := i % 2

/-- `row = i // 2` from `FeatureGrid.draw`. -/
def FeatureGrid.cellRow (i : ℕ) : ℕ := i / 2

/-- `bx = col * (col_w + 8)` from `FeatureGrid.draw`. -/
def FeatureGrid.cellX (g : FeatureGrid) (i : ℕ) : ℚ :=
  (FeatureGrid.cellCol i) * (g.colW + 8)

/-- `by = self.height - (row + 1) * row_h + 2` from `FeatureGrid.draw`
(with `row_h = 36`). -/
def FeatureGrid.cellY (g : FeatureGrid) (i : ℕ) : ℚ :=
  g.height - ((FeatureGrid.cellRow i) + 1) * 36 + 2

/-- Observable output of `FeatureGrid.draw`: the card origin of every feature
cell, in input order.  No ambient state is read. -/
def FeatureGrid.drawOutput (g : FeatureGrid) (_env : DrawEnv) : List (ℚ × ℚ) :=
  (List.range g.features.length).map (fun i => (g.cellX i, g.cellY i))

/- ── ColorBadge (generate-storage-report.py, lines 193-211) ─────────────── -/

/-- Fields stored by `ColorBadge.__init__` (the source defaults are
width 110 and height 16; callers may override). -/
structure ColorBadge where
  text : String
  bg : String
  fg : String
  width : ℚ
  height : ℚ
deriving DecidableEq

/-- `ColorBadge.wrap(self, *args)`: returns `(self.width, self.height)`. -/
def ColorBadge.wrapM (b : ColorBadge) (_args : List ℚ) : (ℚ × ℚ) × ColorBadge :=
  ((b.width, b.height), b)

/-- Observable output of `ColorBadge.draw`: the pill rectangle and its text.
No ambient state is read. -/
def ColorBadge.drawOutput (b : ColorBadge) (_env : DrawEnv) : ℚ × ℚ × String :=
  (b.width, b.height, b.text)

/- ── make_table (generate-storage-report.py, lines 104-148) ─────────────── -/

/-- The three paragraph styles a cell of `make_table` can receive. -/
inductive CellStyle where
  | header
  | warn
  | body
deriving DecidableEq

/-- A cell paragraph: its text together with the paragraph style it was
given. -/
structure StyledCell where
  text : String
  style : CellStyle
deriving DecidableEq

/-- Boolean substring test, modelling the Python expression
`needle in haystack` on strings (character-sequence containment). -/
def containsSeq (needle : List Char) : List Char → Bool
  | [] => needle.isEmpty
  | c :: rest => needle.isPrefixOf (c :: rest) || containsSeq needle rest

/-- The warning marker `"⚠️"` tested by `make_table` (the warning sign
character followed by the emoji variation selector). -/
def warnSeq : List Char := "⚠️".toList

/-- The cell-styling step of `make_table`: a body cell is rendered with
`warn_style` under `if "⚠️" in txt`, else with `body_style`.  The decision
reads only the cell text. -/
def styleCell (txt : String) : StyledCell :=
  if containsSeq warnSeq txt.toList then ⟨txt, CellStyle.warn⟩ else ⟨txt, CellStyle.body⟩

/-- One point per reportlab `cm` unit, exactly: `cm = 72 / 2.54 = 3600/127`. -/
def cmUnit : ℚ := 3600 / 127

/-- `make_table(headers, rows, col_widths, warn_col=None)`: returns the
styled cell grid (header row of `caption_style` cells followed by the styled
body rows) and the column widths converted to points.  The `warn_col`
parameter appears in the signature and docstring but is never read by the
body. -/
def makeTable (headers : List String) (rows : List (List String))
    (colWidths : List ℚ) (_warnCol : Option ℕ) :
    List (List StyledCell) × List ℚ :=
  ((headers.map (fun h => StyledCell.mk h CellStyle.header)) ::
      rows.map (fun row => row.map styleCell),
    colWidths.map (fun w => w * cmUnit))

/-- `make_table` builds its reportlab table with `repeatRows=1`: exactly the
first (header) row is designated to repeat on continuation pages. -/
def makeTableRepeatRows : ℕ := 1

/- ── Pagination engine (modelled from the spec) ─────────────────────────── -/

/-- Modelled from the spec: the table page-splitting step of the layout
engine (spec section 4.2).  The splitting code itself is the reportlab
platypus library, which is not under src/; the repository only constructs
tables and designates their repeating header rows (`repeatRows=1` in
`make_table`).  A table is a designated header-row count plus the full row
list; each row carries its rendered content-and-style payload (a string) and
its height. -/
structure TableBlock where
  headerRowCount : ℕ
  rows : List (String × ℚ)
deriving DecidableEq

/-- Total height of a run of rows. -/
def rowHeightSum (rs : List (String × ℚ)) : ℚ := (rs.map Prod.snd).sum

/-- The designated header rows (rows `0 .. headerRowCount-1`). -/
def TableBlock.headerRows (t : TableBlock) : List (String × ℚ) :=
  t.rows.take t.headerRowCount

/-- The body rows (everything after the header rows). -/
def TableBlock.bodyRows (t : TableBlock) : List (String × ℚ) :=
  t.rows.drop t.headerRowCount

/-- Modelled from the spec: the sub-measurement query of spec section 4.2 —
how many leading body rows fit in `avail` once the header height `hdrH` is
reserved, accumulating row heights until the next row would overflow. -/
def fitCount (avail hdrH : ℚ) : List (String × ℚ) → ℕ
  | [] => 0
  | r :: rest => if hdrH + r.2 ≤ avail then fitCount (avail - r.2) hdrH rest + 1 else 0

/-- Modelled from the spec: the continuation loop of spec section 4.2.  Each
full continuation page takes the header plus as many remaining body rows as
fit; when even one body row cannot join the header on a full page (or fuel is
exhausted) the remainder is emitted as a single overflowing chunk — the
deterministic degenerate case of spec section 7. -/
def splitGo (hdr : List (String × ℚ)) (hdrH pageH : ℚ) :
    ℕ → List (String × ℚ) → List (List (String × ℚ))
  | _, [] => []
  | 0, body => [hdr ++ body]
  | fuel + 1, r :: rest =>
    if fitCount pageH hdrH (r :: rest) = 0 then [hdr ++ (r :: rest)]
    else
      (hdr ++ (r :: rest).take (fitCount pageH hdrH (r :: rest))) ::
        splitGo hdr hdrH pageH fuel ((r :: rest).drop (fitCount pageH hdrH (r :: rest)))

/-- Modelled from the spec: splitting a table across pages (spec section
4.2).  The first chunk is measured against the space remaining on the
current page (`firstAvail`); if the header plus at least one body row does
not fit there, the whole table moves to a fresh page.  Every continuation
chunk gets the header rows re-prepended and a full page of height `pageH`. -/
def TableBlock.split (t : TableBlock) (firstAvail pageH : ℚ) :
    List (List (String × ℚ)) :=
  if fitCount firstAvail (rowHeightSum t.headerRows) t.bodyRows = 0 then
    splitGo t.headerRows (rowHeightSum t.headerRows) pageH t.bodyRows.length t.bodyRows
  else
    (t.headerRows ++ t.bodyRows.take (fitCount firstAvail (rowHeightSum t.headerRows) t.bodyRows)) ::
      splitGo t.headerRows (rowHeightSum t.headerRows) pageH
        (t.bodyRows.drop (fitCount firstAvail (rowHeightSum t.headerRows) t.bodyRows)).length
        (t.bodyRows.drop (fitCount firstAvail (rowHeightSum t.headerRows) t.bodyRows))

/-- Modelled from the spec: a content block as the pagination engine of spec
section 4.1 sees it.  The engine itself is reportlab platypus code, not under
src/.  Only the data the pagination decisions read is kept: a simple block is
its measured height, a keep-together group is the list of its children's
heights, and an explicit page break carries no content. -/
inductive Block where
  | simple (h : ℚ)
  | group (children : List ℚ)
  | pageBreak
deriving DecidableEq

/-- Modelled from the spec: measurement (spec section 4.1 step 1); a
KeepTogetherGroup is measured as the sum of its children's heights. -/
def Block.measure : Block → ℚ
  | Block.simple h => h
  | Block.group cs => cs.sum
  | Block.pageBreak => 0

/-- A placement produced by the engine: page index, vertical offset from the
top of the usable area, and the placed height. -/
structure Placement where
  page : ℕ
  y : ℚ
  height : ℚ
deriving DecidableEq

/-- The placements of a group's children once the group is assigned an
origin: children stack top-to-bottom inside the group, all on the group's
page. -/
def childPlacements (page : ℕ) : ℚ → List ℚ → List Placement
  | _, [] => []
  | y, h :: rest => Placement.mk page y h :: childPlacements page (y + h) rest

/-- The placements a block contributes once the engine assigns it an origin. -/
def Block.place (b : Block) (page : ℕ) (y : ℚ) : List Placement :=
  match b with
  | Block.simple h => [Placement.mk page y h]
  | Block.group cs => childPlacements page y cs
  | Block.pageBreak => []

/-- Modelled from the spec: the cursor-driven pagination loop of spec section
4.1 (steps 2, 3 and 5).  A block whose height exceeds the remaining space
moves to the top of a fresh page (atomically — groups are never split); an
explicit page break unconditionally advances to a new page.  Returns one
placement list per input block, index-aligned with the input. -/
def layoutGo (pageH : ℚ) : List Block → ℕ → ℚ → List (List Placement)
  | [], _, _ => []
  | b :: rest, page, y =>
    match b with
    | Block.pageBreak => [] :: layoutGo pageH rest (page + 1) 0
    | _ =>
      if y + b.measure ≤ pageH then
        b.place page y :: layoutGo pageH rest page (y + b.measure)
      else
        b.place (page + 1) 0 :: layoutGo pageH rest (page + 1) b.measure

/-- Modelled from the spec: one full layout pass over a block sequence,
starting from page 0 with the cursor at the top of the usable area. -/
def layout (pageH : ℚ) (blocks : List Block) : List (List Placement) :=
  layoutGo pageH blocks 0 0

/-- The stacked bar of the specification's worked example: total width 300
with components weighted 1 : 1 : 2. -/
def sampleBar : ScoreBreakdownBar :=
  ScoreBreakdownBar.mk 300 [("A", 1, "c1"), ("B", 1, "c2"), ("B", 2, "c3")]

/-- A concrete table for evaluating the split: one designated header row of
height 10 and three body rows of height 30. -/
def sampleTable : TableBlock :=
  TableBlock.mk 1 [("hdr", 10), ("b1", 30), ("b2", 30), ("b3", 30)]

/-- A concrete three-step flow diagram of width 500. -/
def sampleFlow : DataFlowDiagram :=
  DataFlowDiagram.mk 500
    [("GOV", "Public Gov. API"), ("SCORE", "Scoring Engine"), ("UI", "React Component")]
    "purple"

/- ── Helper lemmas ──────────────────────────────────────────────────────── -/

lemma length_filter_range_lt (k : ℕ) :
    ∀ n, ((List.range n).filter (fun i => decide (i < k))).length = min k n := by
  intro n
  induction n with
  | zero => simp
  | succ m ih =>
    rw [List.range_succ, List.filter_append, List.length_append, ih]
    by_cases h : m < k
    · simp [h]
      omega
    · simp [h]
      omega

lemma segRectsAux_eq (width total : ℚ) (h : total ≠ 0) :
    ∀ (comps : List (String × ℚ × String)) (x : ℚ),
      segRectsAux width total x comps = Except.ok (specSegs width total x comps) := by
  intro comps
  induction comps with
  | nil => intro x; rfl
  | cons c rest ih => intro x; simp [segRectsAux, specSegs, h, ih]

lemma specSegs_length (width total : ℚ) :
    ∀ (comps : List (String × ℚ × String)) (x : ℚ),
      (specSegs width total x comps).length = comps.length := by
  intro comps
  induction comps with
  | nil => intro x; rfl
  | cons c rest ih => intro x; simp [specSegs, ih]

lemma specSegs_getD (width total : ℚ) :
    ∀ (comps : List (String × ℚ × String)) (x : ℚ) (i : ℕ), i < comps.length →
      (specSegs width total x comps).getD i (0, 0) =
        (x + ((comps.take i).map compWeight).sum / total * width,
          compWeight (comps.getD i ("", 0, "")) / total * width - 1) := by
  intro comps
  induction comps with
  | nil => intro x i hi; simp at hi
  | cons c rest ih =>
    intro x i hi
    cases i with
    | zero => simp [specSegs]
    | succ j =>
      have hj : j < rest.length := by simpa using hi
      simp only [specSegs, List.getD_cons_succ, List.take_succ_cons, List.map_cons,
        List.sum_cons]
      rw [ih _ j hj]
      simp only [Prod.mk.injEq]
      exact ⟨by ring, by trivial⟩

lemma legendXsAux_length (step : ℚ) :
    ∀ (comps : List (String × ℚ × String)) (lx : ℚ),
      (legendXsAux step lx comps).length = comps.length := by
  intro comps
  induction comps with
  | nil => intro lx; rfl
  | cons c rest ih => intro lx; simp [legendXsAux, ih]

lemma legendXsAux_getD (step : ℚ) :
    ∀ (comps : List (String × ℚ × String)) (lx : ℚ) (i : ℕ), i < comps.length →
      (legendXsAux step lx comps).getD i 0 = lx + i * step := by
  intro comps
  induction comps with
  | nil => intro lx i hi; simp at hi
  | cons c rest ih =>
    intro lx i hi
    cases i with
    | zero => simp [legendXsAux]
    | succ j =>
      have hj : j < rest.length := by simpa using hi
      simp only [legendXsAux, List.getD_cons_succ]
      rw [ih _ j hj]
      push_cast
      ring

lemma natCeilHalf (n : ℕ) : ⌈(n : ℚ) / 2⌉ = (((n + 1) / 2 : ℕ) : ℤ) := by
  have h1 : n ≤ 2 * ((n + 1) / 2) := by omega
  have h2 : 2 * ((n + 1) / 2) ≤ n + 1 := by omega
  have h1q : (n : ℚ) ≤ 2 * (((n + 1) / 2 : ℕ) : ℚ) := by exact_mod_cast h1
  have h2q : (2 : ℚ) * (((n + 1) / 2 : ℕ) : ℚ) ≤ (n : ℚ) + 1 := by exact_mod_cast h2
  rw [Int.ceil_eq_iff]
  simp only [Int.cast_natCast]
  constructor
  · linarith
  · linarith

lemma splitGo_spec (hdr : List (String × ℚ)) (hdrH pageH : ℚ) :
    ∀ (fuel : ℕ) (body : List (String × ℚ)),
      ∃ slices : List (List (String × ℚ)),
        splitGo hdr hdrH pageH fuel body = slices.map (fun s => hdr ++ s) ∧
        slices.flatten = body := by
  intro fuel
  induction fuel with
  | zero =>
    intro body
    cases body with
    | nil => exact ⟨[], rfl, rfl⟩
    | cons r rest => exact ⟨[r :: rest], by simp [splitGo], by simp⟩
  | succ f ih =>
    intro body
    cases body with
    | nil => exact ⟨[], rfl, rfl⟩
    | cons r rest =>
      by_cases hk : fitCount pageH hdrH (r :: rest) = 0
      · exact ⟨[r :: rest], by simp [splitGo, hk], by simp⟩
      · obtain ⟨slices, h1, h2⟩ := ih ((r :: rest).drop (fitCount pageH hdrH (r :: rest)))
        refine ⟨(r :: rest).take (fitCount pageH hdrH (r :: rest)) :: slices, ?_, ?_⟩
        · simp [splitGo, hk, h1]
        · simp [h2]

lemma childPlacements_page (page : ℕ) :
    ∀ (cs : List ℚ) (y : ℚ) (p : Placement),
      p ∈ childPlacements page y cs → p.page = page := by
  intro cs
  induction cs with
  | nil => intro y p hp; simp [childPlacements] at hp
  | cons h rest ih =>
    intro y p hp
    rw [childPlacements, List.mem_cons] at hp
    rcases hp with rfl | hp
    · rfl
    · exact ih _ p hp

lemma layoutGo_getElem (pageH : ℚ) :
    ∀ (blocks : List Block) (page : ℕ) (y : ℚ) (i : ℕ) (b : Block),
      blocks[i]? = some b →
      ∃ pg yy, (layoutGo pageH blocks page y)[i]? = some (b.place pg yy) := by
  intro blocks
  induction blocks with
  | nil => intro page y i b hb; simp at hb
  | cons b0 rest ih =>
    intro page y i b hb
    cases i with
    | zero =>
      have hb0 : b0 = b := by simpa using hb
      subst hb0
      cases b0 with
      | pageBreak => exact ⟨page + 1, 0, by simp [layoutGo, Block.place]⟩
      | simple h =>
        by_cases hfit : y + (Block.simple h).measure ≤ pageH
        · exact ⟨page, y, by simp [layoutGo, hfit]⟩
        · exact ⟨page + 1, 0, by simp [layoutGo, hfit]⟩
      | group cs =>
        by_cases hfit : y + (Block.group cs).measure ≤ pageH
        · exact ⟨page, y, by simp [layoutGo, hfit]⟩
        · exact ⟨page + 1, 0, by simp [layoutGo, hfit]⟩
    | succ j =>
      have hb' : rest[j]? = some b := by simpa using hb
      cases b0 with
      | pageBreak => simpa [layoutGo] using ih (page + 1) 0 j b hb'
      | simple h =>
        by_cases hfit : y + (Block.simple h).measure ≤ pageH
        · simpa [layoutGo, hfit] using ih page (y + (Block.simple h).measure) j b hb'
        · simpa [layoutGo, hfit] using ih (page + 1) ((Block.simple h).measure) j b hb'
      | group cs =>
        by_cases hfit : y + (Block.group cs).measure ≤ pageH
        · simpa [layoutGo, hfit] using ih page (y + (Block.group cs).measure) j b hb'
        · simpa [layoutGo, hfit] using ih (page + 1) ((Block.group cs).measure) j b hb'

lemma containsSeq_iff (needle : List Char) :
    ∀ hay : List Char, containsSeq needle hay = true ↔ needle <:+: hay := by
  intro hay
  induction hay with
  | nil => simp [containsSeq, List.isEmpty_iff]
  | cons c rest ih =>
    rw [containsSeq, Bool.or_eq_true, ih, List.isPrefixOf_iff_prefix, List.infix_cons_iff]

/- ── Claim theorems ─────────────────────────────────────────────────────── -/

/-- C1 (counterexample): the claim says the filled-arc sweep is exactly
`score × 1.8` degrees for every score in `[0,100]`, but `ScoreGauge.draw`
truncates with `int(...)`: at score 1 the code produces sweep 1, not 1.8. -/
theorem scoreGauge_sweep_not_exact :
    ¬ (((ScoreGauge.mk 1 "OIC" "indigo" 90).sweepAngle : ℚ) =
        (ScoreGauge.mk 1 "OIC" "indigo" 90).score * (9 / 5)) := by
  have h1 : (ScoreGauge.mk 1 "OIC" "indigo" 90).sweepAngle = 1 := by
    rw [ScoreGauge.sweepAngle, pyTrunc, if_pos (by norm_num)]
    norm_num [Int.floor_eq_iff]
  rw [h1]
  show ¬ ((1 : ℤ) : ℚ) = (1 : ℚ) * (9 / 5)
  norm_num

/-- C1 (amended): for every `ScoreGauge` with score in `[0,100]`, drawing
produces a filled-arc sweep of `int(score × 1.8)` degrees — `score × 1.8`
truncated to an integer — which stays in `[0,180]`; the filled arc is
omitted (track only) exactly when that sweep is not positive; in particular
score 0 gives sweep 0, score 50 gives sweep 90 and score 100 gives
sweep 180. -/
theorem scoreGauge_sweep_angle (g : ScoreGauge)
    (h0 : 0 ≤ g.score) (h1 : g.score ≤ 100) :
    g.sweepAngle = ⌊g.score * (9 / 5)⌋ ∧
    0 ≤ g.sweepAngle ∧ g.sweepAngle ≤ 180 ∧
    (g.drawsFilledArc = true ↔ 0 < g.sweepAngle) ∧
    (g.score = 0 → g.sweepAngle = 0) ∧
    (g.score = 50 → g.sweepAngle = 90) ∧
    (g.score = 100 → g.sweepAngle = 180) := by
  have hq : 0 ≤ g.score * (9 / 5) := mul_nonneg h0 (by norm_num)
  have hfloor : g.sweepAngle = ⌊g.score * (9 / 5)⌋ := by
    rw [ScoreGauge.sweepAngle, pyTrunc, if_pos hq]
  refine ⟨hfloor, ?_, ?_, ?_, ?_, ?_, ?_⟩
  · rw [hfloor]
    exact Int.floor_nonneg.mpr hq
  · rw [hfloor]
    have hle : g.score * (9 / 5) ≤ 180 := by linarith
    calc ⌊g.score * (9 / 5)⌋ ≤ ⌊(180 : ℚ)⌋ := Int.floor_le_floor hle
      _ = 180 := by norm_num
  · rw [ScoreGauge.drawsFilledArc]
    exact decide_eq_true_iff
  · intro h
    rw [hfloor, h]
    norm_num
  · intro h
    rw [hfloor, h, show ((50 : ℚ) * (9 / 5)) = ((90 : ℤ) : ℚ) from by norm_num,
      Int.floor_intCast]
  · intro h
    rw [hfloor, h, show ((100 : ℚ) * (9 / 5)) = ((180 : ℤ) : ℚ) from by norm_num,
      Int.floor_intCast]

/-- C1 (witness): the amended theorem at the concrete gauge with score 97
(where truncation is visible: 97 × 1.8 = 174.6, sweep 174). -/
theorem scoreGauge_sweep_angle_witness :
    0 ≤ (ScoreGauge.mk 97 "OIC" "indigo" 90).score ∧
    (ScoreGauge.mk 97 "OIC" "indigo" 90).score ≤ 100 ∧
    ((ScoreGauge.mk 97 "OIC" "indigo" 90).sweepAngle =
        ⌊(ScoreGauge.mk 97 "OIC" "indigo" 90).score * (9 / 5)⌋ ∧
      0 ≤ (ScoreGauge.mk 97 "OIC" "indigo" 90).sweepAngle ∧
      (ScoreGauge.mk 97 "OIC" "indigo" 90).sweepAngle ≤ 180 ∧
      ((ScoreGauge.mk 97 "OIC" "indigo" 90).drawsFilledArc = true ↔
        0 < (ScoreGauge.mk 97 "OIC" "indigo" 90).sweepAngle) ∧
      ((ScoreGauge.mk 97 "OIC" "indigo" 90).score = 0 →
        (ScoreGauge.mk 97 "OIC" "indigo" 90).sweepAngle = 0) ∧
      ((ScoreGauge.mk 97 "OIC" "indigo" 90).score = 50 →
        (ScoreGauge.mk 97 "OIC" "indigo" 90).sweepAngle = 90) ∧
      ((ScoreGauge.mk 97 "OIC" "indigo" 90).score = 100 →
        (ScoreGauge.mk 97 "OIC" "indigo" 90).sweepAngle = 180)) :=
  ⟨by show (0 : ℚ) ≤ 97; norm_num, by show (97 : ℚ) ≤ 100; norm_num,
    scoreGauge_sweep_angle (ScoreGauge.mk 97 "OIC" "indigo" 90)
      (by show (0 : ℚ) ≤ 97; norm_num) (by show (97 : ℚ) ≤ 100; norm_num)⟩

/-- C2 (counterexample): the claim says an out-of-range score or a
zero-total-weight stacked bar raises at construction time, but both
constructors accept these inputs silently: `ScoreGauge.__init__` with score
150 and `ScoreBreakdownBar.__init__` with all-zero weights return normally. -/
theorem construction_accepts_invalid :
    ScoreGauge.init 150 "X" "red" 90 = Except.ok (ScoreGauge.mk 150 "X" "red" 90) ∧
    ScoreBreakdownBar.init 300 [("A", 0, "c1"), ("B", 0, "c2")] =
      Except.ok (ScoreBreakdownBar.mk 300 [("A", 0, "c1"), ("B", 0, "c2")]) :=
  ⟨rfl, rfl⟩

/-- C2 (amended): neither constructor validates anything — every score
(including out-of-range ones) and every component list (including
zero-total-weight ones) is accepted silently at construction; a stacked bar
whose weights sum to zero only fails later, when `draw` divides by the zero
total. -/
theorem construction_no_validation :
    (∀ (s : ℚ) (lbl col : String) (sz : ℚ),
      ScoreGauge.init s lbl col sz = Except.ok (ScoreGauge.mk s lbl col sz)) ∧
    (∀ (w : ℚ) (comps : List (String × ℚ × String)),
      ScoreBreakdownBar.init w comps = Except.ok (ScoreBreakdownBar.mk w comps)) ∧
    (∀ b : ScoreBreakdownBar, sumWeights b.components = 0 → b.components ≠ [] →
      b.segRects = Except.error "ZeroDivisionError") := by
  refine ⟨fun s lbl col sz => rfl, fun w comps => rfl, fun b h hne => ?_⟩
  obtain ⟨w, comps⟩ := b
  cases comps with
  | nil => exact absurd rfl hne
  | cons c rest =>
    show segRectsAux w (sumWeights (c :: rest)) 0 (c :: rest) = Except.error "ZeroDivisionError"
    have h' : sumWeights (c :: rest) = 0 := h
    simp [segRectsAux, h']

/-- C2 (witness): the amended theorem's draw-time failure at a concrete
zero-weight bar. -/
theorem construction_no_validation_witness :
    sumWeights (ScoreBreakdownBar.mk 300 [("A", 0, "c")]).components = 0 ∧
    (ScoreBreakdownBar.mk 300 [("A", 0, "c")]).components ≠ [] ∧
    (ScoreBreakdownBar.mk 300 [("A", 0, "c")]).segRects = Except.error "ZeroDivisionError" :=
  ⟨by simp [sumWeights, compWeight], by simp,
    construction_no_validation.2.2 (ScoreBreakdownBar.mk 300 [("A", 0, "c")])
      (by simp [sumWeights, compWeight]) (by simp)⟩

/-- C3 (confirmed): for every stacked bar with positive total weight, `draw`
succeeds, segment `i` is drawn at the cumulated full proportional widths of
the previous items with drawn width `weight_i / Σweight × width − 1`
(the 1-unit inter-segment gap), segments appear left-to-right in input
order, and legend swatch `i` sits at `i × (width / itemCount)` — each swatch
is allotted `width / itemCount` of horizontal space, in the same order. -/
theorem stackedBar_segment_widths (b : ScoreBreakdownBar)
    (hpos : 0 < sumWeights b.components) :
    b.segRects =
      Except.ok (specSegs b.width (sumWeights b.components) 0 b.components) ∧
    (∀ i, i < b.components.length →
      (specSegs b.width (sumWeights b.components) 0 b.components).getD i (0, 0) =
        (((b.components.take i).map compWeight).sum / sumWeights b.components * b.width,
          compWeight (b.components.getD i ("", 0, "")) / sumWeights b.components * b.width
            - 1)) ∧
    b.legendXs.length = b.components.length ∧
    (∀ i, i < b.components.length →
      b.legendXs.getD i 0 = i * (b.width / b.components.length)) := by
  have hne : sumWeights b.components ≠ 0 := ne_of_gt hpos
  refine ⟨segRectsAux_eq _ _ hne _ _, fun i hi => ?_,
    legendXsAux_length _ _ _, fun i hi => ?_⟩
  · rw [specSegs_getD _ _ _ _ i hi, zero_add]
  · rw [ScoreBreakdownBar.legendXs, legendXsAux_getD _ _ _ i hi, zero_add]

/-- C3 (witness): the theorem at the specification's worked example — width
300, weights 1 : 1 : 2 — whose segments evaluate to the proportional widths
75, 75, 150 minus the 1-unit gap, at positions 0, 75, 150. -/
theorem stackedBar_segment_widths_witness :
    0 < sumWeights sampleBar.components ∧
    (sampleBar.segRects =
        Except.ok (specSegs sampleBar.width (sumWeights sampleBar.components) 0
          sampleBar.components) ∧
      (∀ i, i < sampleBar.components.length →
        (specSegs sampleBar.width (sumWeights sampleBar.components) 0
            sampleBar.components).getD i (0, 0) =
          (((sampleBar.components.take i).map compWeight).sum /
              sumWeights sampleBar.components * sampleBar.width,
            compWeight (sampleBar.components.getD i ("", 0, "")) /
              sumWeights sampleBar.components * sampleBar.width - 1)) ∧
      sampleBar.legendXs.length = sampleBar.components.length ∧
      (∀ i, i < sampleBar.components.length →
        sampleBar.legendXs.getD i 0 = i * (sampleBar.width / sampleBar.components.length))) ∧
    sampleBar.segRects = Except.ok [(0, 74), (75, 74), (150, 149)] :=
  ⟨by norm_num [sampleBar, sumWeights, compWeight],
    stackedBar_segment_widths sampleBar (by norm_num [sampleBar, sumWeights, compWeight]),
    by norm_num [sampleBar, ScoreBreakdownBar.segRects, segRectsAux, sumWeights, compWeight]⟩

/-- C4 (confirmed, modelled from the spec): however a table is split across
pages, every emitted page chunk is exactly the designated header rows
followed by a slice of body rows — so the header rows reappear, identical in
content and style payload, at the top of every page the table spans — and
the body slices concatenate back to the original body rows: each body row
appears exactly once, in original order. -/
theorem tableBlock_split_header_repeat (t : TableBlock) (firstAvail pageH : ℚ)
    (hhdr : t.headerRowCount ≤ t.rows.length) :
    ∃ slices : List (List (String × ℚ)),
      t.split firstAvail pageH = slices.map (fun s => t.headerRows ++ s) ∧
      slices.flatten = t.bodyRows ∧
      ∀ page ∈ t.split firstAvail pageH,
        page.take t.headerRowCount = t.headerRows := by
  have hlen : t.headerRows.length = t.headerRowCount := by
    rw [TableBlock.headerRows, List.length_take]
    omega
  have htake : ∀ s : List (String × ℚ),
      (t.headerRows ++ s).take t.headerRowCount = t.headerRows := by
    intro s
    rw [← hlen, List.take_left]
  rw [TableBlock.split]
  by_cases hk : fitCount firstAvail (rowHeightSum t.headerRows) t.bodyRows = 0
  · rw [if_pos hk]
    obtain ⟨slices, h1, h2⟩ :=
      splitGo_spec t.headerRows (rowHeightSum t.headerRows) pageH t.bodyRows.length t.bodyRows
    refine ⟨slices, h1, h2, ?_⟩
    intro page hp
    rw [h1] at hp
    obtain ⟨s, _, rfl⟩ := List.mem_map.mp hp
    exact htake s
  · rw [if_neg hk]
    obtain ⟨slices, h1, h2⟩ :=
      splitGo_spec t.headerRows (rowHeightSum t.headerRows) pageH
        (t.bodyRows.drop (fitCount firstAvail (rowHeightSum t.headerRows) t.bodyRows)).length
        (t.bodyRows.drop (fitCount firstAvail (rowHeightSum t.headerRows) t.bodyRows))
    refine ⟨t.bodyRows.take (fitCount firstAvail (rowHeightSum t.headerRows) t.bodyRows)
        :: slices, ?_, ?_, ?_⟩
    · rw [List.map_cons, h1]
    · rw [List.flatten_cons, h2, List.take_append_drop]
    · intro page hp
      rw [List.mem_cons] at hp
      rcases hp with rfl | hp
      · exact htake _
      · rw [h1] at hp
        obtain ⟨s, _, rfl⟩ := List.mem_map.mp hp
        exact htake s

/-- C4 (witness): the theorem at a concrete table (header height 10, three
body rows of height 30, 45 units left on the current page, full pages of
height 50) which splits across three pages. -/
theorem tableBlock_split_header_repeat_witness :
    sampleTable.headerRowCount ≤ sampleTable.rows.length ∧
    ∃ slices : List (List (String × ℚ)),
      sampleTable.split 45 50 = slices.map (fun s => sampleTable.headerRows ++ s) ∧
      slices.flatten = sampleTable.bodyRows ∧
      ∀ page ∈ sampleTable.split 45 50,
        page.take sampleTable.headerRowCount = sampleTable.headerRows :=
  ⟨by decide, tableBlock_split_header_repeat sampleTable 45 50 (by decide)⟩

/-- C5 (confirmed): for every step-flow diagram with at least one step, the
gap equals `(width − n × 90) / (n + 1)`, the fixed-size boxes are evenly
distributed — the gap before the first box, between any two consecutive
boxes, and after the last box are all that same value — and an arrow is
drawn in every inter-box gap except after the last box, giving exactly
`n − 1` arrows. -/
theorem dataFlow_even_distribution (d : DataFlowDiagram) (hn : 1 ≤ d.steps.length) :
    d.gap = (d.width - d.steps.length * boxW) / (d.steps.length + 1) ∧
    d.boxX 0 = d.gap ∧
    (∀ i : ℕ, d.boxX (i + 1) - (d.boxX i + boxW) = d.gap) ∧
    d.width - (d.boxX (d.steps.length - 1) + boxW) = d.gap ∧
    d.arrowIndices.length = d.steps.length - 1 := by
  refine ⟨rfl, by simp [DataFlowDiagram.boxX], fun i => ?_, ?_, ?_⟩
  · rw [DataFlowDiagram.boxX, DataFlowDiagram.boxX]
    push_cast
    ring
  · have hne : ((d.steps.length : ℚ) + 1) ≠ 0 := by positivity
    rw [DataFlowDiagram.boxX, DataFlowDiagram.gap, Nat.cast_sub hn, boxW]
    push_cast
    field_simp
    ring
  · rw [DataFlowDiagram.arrowIndices]
    have hcong : ∀ i ∈ List.range d.steps.length,
        d.drawsArrow i = decide (i < d.steps.length - 1) := by
      intro i _
      rw [DataFlowDiagram.drawsArrow, decide_eq_decide]
      omega
    rw [List.filter_congr hcong, length_filter_range_lt]
    omega

/-- C5 (witness): the theorem at a concrete three-step diagram of width 500
(gap (500 − 270)/4, two arrows). -/
theorem dataFlow_even_distribution_witness :
    1 ≤ sampleFlow.steps.length ∧
    (sampleFlow.gap =
        (sampleFlow.width - sampleFlow.steps.length * boxW) / (sampleFlow.steps.length + 1) ∧
      sampleFlow.boxX 0 = sampleFlow.gap ∧
      (∀ i : ℕ, sampleFlow.boxX (i + 1) - (sampleFlow.boxX i + boxW) = sampleFlow.gap) ∧
      sampleFlow.width - (sampleFlow.boxX (sampleFlow.steps.length - 1) + boxW) =
        sampleFlow.gap ∧
      sampleFlow.arrowIndices.length = sampleFlow.steps.length - 1) :=
  ⟨by decide, dataFlow_even_distribution sampleFlow (by decide)⟩

/-- C6 (counterexample): the claim says a FeatureGrid's measured height is
`ceil(n/2) × rowHeight` with row height 36, but `FeatureGrid.__init__` adds
4 units of padding: with 2 features the height is 40, not `ceil(2/2) × 36 = 36`. -/
theorem featureGrid_height_mismatch :
    (FeatureGrid.mk 300 [("A", "x"), ("B", "y")] "accent").height ≠
      ((⌈((FeatureGrid.mk 300 [("A", "x"), ("B", "y")] "accent").features.length : ℚ)
            / 2⌉ : ℤ) : ℚ) * 36 := by
  have h : (FeatureGrid.mk 300 [("A", "x"), ("B", "y")] "accent").height = 40 := by
    norm_num [FeatureGrid.height, FeatureGrid.rowCount]
  have hlen : (FeatureGrid.mk 300 [("A", "x"), ("B", "y")] "accent").features.length = 2 :=
    rfl
  rw [h, hlen, natCeilHalf]
  norm_num

/-- C6 (amended): items are laid out in a fixed 2-column grid in row-major
order — item `i` sits in column `i mod 2` and row `i div 2` with fixed row
height 36 — and the measured panel height is `ceil(n/2) × 36` plus a fixed
4-unit padding. -/
theorem featureGrid_layout (g : FeatureGrid) (i : ℕ) :
    g.height = ((⌈(g.features.length : ℚ) / 2⌉ : ℤ) : ℚ) * 36 + 4 ∧
    g.cellX i = (FeatureGrid.cellCol i : ℚ) * ((g.width - 8) / 2 + 8) ∧
    FeatureGrid.cellCol i = i % 2 ∧
    g.cellY i = g.height - ((FeatureGrid.cellRow i : ℚ) + 1) * 36 + 2 ∧
    FeatureGrid.cellRow i = i / 2 := by
  refine ⟨?_, rfl, rfl, rfl, rfl⟩
  rw [FeatureGrid.height, FeatureGrid.rowCount, natCeilHalf, Int.cast_natCast]

/-- C7 (counterexample): the claim says the draw output of every block is
identical across runs and every diagram variant is a pure function of its
constructor inputs only, but `HeroHeader.draw` embeds
`datetime.date.today()`: the same header drawn on two different days
produces different output. -/
theorem heroHeader_draw_depends_on_date :
    (HeroHeader.mk 500).drawStrings (DrawEnv.mk "January 01, 2025") ≠
      (HeroHeader.mk 500).drawStrings (DrawEnv.mk "January 02, 2025") := by
  simp [HeroHeader.drawStrings]

/-- C7 (amended): layout and drawing are deterministic given the run date:
every diagram variant except `HeroHeader` produces draw output that is a
pure function of its constructor inputs, independent of the ambient
environment; `HeroHeader.draw` additionally reads the current date, and its
output is a function of the constructor inputs plus that date, so two runs
with identical inputs and an identical date produce identical output. -/
theorem diagram_draw_purity :
    (∀ (g : ScoreGauge) (e e' : DrawEnv), g.drawOutput e = g.drawOutput e') ∧
    (∀ (d : DataFlowDiagram) (e e' : DrawEnv), d.drawOutput e = d.drawOutput e') ∧
    (∀ (b : ScoreBreakdownBar) (e e' : DrawEnv), b.drawOutput e = b.drawOutput e') ∧
    (∀ (fg : FeatureGrid) (e e' : DrawEnv), fg.drawOutput e = fg.drawOutput e') ∧
    (∀ (sb : SectionBanner) (e e' : DrawEnv), sb.drawOutput e = sb.drawOutput e') ∧
    (∀ (r : ColoredRect) (e e' : DrawEnv), r.drawOutput e = r.drawOutput e') ∧
    (∀ (cb : ColorBadge) (e e' : DrawEnv), cb.drawOutput e = cb.drawOutput e') ∧
    (∀ (hh : HeroHeader) (e e' : DrawEnv), e.today = e'.today →
      hh.drawStrings e = hh.drawStrings e') := by
  refine ⟨fun g u v => rfl, fun d u v => rfl, fun b u v => rfl, fun fg u v => rfl,
    fun sb u v => rfl, fun r u v => rfl, fun cb u v => rfl, fun hh e e' h => ?_⟩
  rw [HeroHeader.drawStrings, HeroHeader.drawStrings, h]

/-- C7 (witness): the hero-header clause of the amended theorem at a
concrete width and date. -/
theorem diagram_draw_purity_witness :
    (DrawEnv.mk "May 01, 2025").today = (DrawEnv.mk "May 01, 2025").today ∧
    (HeroHeader.mk 500).drawStrings (DrawEnv.mk "May 01, 2025") =
      (HeroHeader.mk 500).drawStrings (DrawEnv.mk "May 01, 2025") :=
  ⟨rfl, diagram_draw_purity.2.2.2.2.2.2.2 (HeroHeader.mk 500)
    (DrawEnv.mk "May 01, 2025") (DrawEnv.mk "May 01, 2025") rfl⟩

/-- C8 (confirmed, modelled from the spec): a keep-together group whose
measured height is at most the usable page height contributes placements
that all carry one and the same page index — its children are never split
across a page boundary. -/
theorem keepTogetherGroup_single_page (pageH : ℚ) (blocks : List Block) (i : ℕ)
    (cs : List ℚ) (hb : blocks[i]? = some (Block.group cs))
    (_hfit : (Block.group cs).measure ≤ pageH) :
    ∃ pls, (layout pageH blocks)[i]? = some pls ∧
      ∀ p ∈ pls, ∀ q ∈ pls, p.page = q.page := by
  obtain ⟨pg, yy, h⟩ := layoutGo_getElem pageH blocks 0 0 i (Block.group cs) hb
  refine ⟨(Block.group cs).place pg yy, h, ?_⟩
  intro p hp q hq
  have hp' : p.page = pg := childPlacements_page pg cs yy p hp
  have hq' : q.page = pg := childPlacements_page pg cs yy q hq
  rw [hp', hq']

/-- C8 (witness): the theorem at a concrete sequence — a 80-unit block
followed by a 70-unit group on a 100-unit page, forcing the group onto the
next page as one unit. -/
theorem keepTogetherGroup_single_page_witness :
    ([Block.simple 80, Block.group [30, 40], Block.simple 10][1]? =
        some (Block.group [30, 40])) ∧
    (Block.group [30, 40]).measure ≤ 100 ∧
    ∃ pls, (layout 100 [Block.simple 80, Block.group [30, 40], Block.simple 10])[1]? =
        some pls ∧ ∀ p ∈ pls, ∀ q ∈ pls, p.page = q.page :=
  ⟨rfl, by norm_num [Block.measure],
    keepTogetherGroup_single_page 100 [Block.simple 80, Block.group [30, 40], Block.simple 10]
      1 [30, 40] rfl (by norm_num [Block.measure])⟩

/-- C9 (confirmed): for every custom flowable variant, `wrap` returns a
`(width, height)` pair fully determined at construction — the same value on
every call, independent of the arguments the engine passes — and leaves the
flowable unchanged. -/
theorem wrap_constant_and_pure :
    (∀ (g : ScoreGauge) (a a' : List ℚ), g.wrapM a = g.wrapM a' ∧
      (g.wrapM a).1 = (g.size, g.size * (7 / 10)) ∧ (g.wrapM a).2 = g) ∧
    (∀ (hh : HeroHeader) (a a' : List ℚ), hh.wrapM a = hh.wrapM a' ∧
      (hh.wrapM a).1 = (hh.width, 200) ∧ (hh.wrapM a).2 = hh) ∧
    (∀ (s : SectionBanner) (a a' : List ℚ), s.wrapM a = s.wrapM a' ∧
      (s.wrapM a).1 = (s.width, 54) ∧ (s.wrapM a).2 = s) ∧
    (∀ (d : DataFlowDiagram) (a a' : List ℚ), d.wrapM a = d.wrapM a' ∧
      (d.wrapM a).1 = (d.width, 64) ∧ (d.wrapM a).2 = d) ∧
    (∀ (b : ScoreBreakdownBar) (a a' : List ℚ), b.wrapM a = b.wrapM a' ∧
      (b.wrapM a).1 = (b.width, 32) ∧ (b.wrapM a).2 = b) ∧
    (∀ (fg : FeatureGrid) (a a' : List ℚ), fg.wrapM a = fg.wrapM a' ∧
      (fg.wrapM a).1 = (fg.width, fg.height) ∧ (fg.wrapM a).2 = fg) ∧
    (∀ (r : ColoredRect) (a a' : List ℚ), r.wrapM a = r.wrapM a' ∧
      (r.wrapM a).1 = (r.w, r.h) ∧ (r.wrapM a).2 = r) ∧
    (∀ (cb : ColorBadge) (a a' : List ℚ), cb.wrapM a = cb.wrapM a' ∧
      (cb.wrapM a).1 = (cb.width, cb.height) ∧ (cb.wrapM a).2 = cb) :=
  ⟨fun g u v => ⟨rfl, rfl, rfl⟩, fun hh u v => ⟨rfl, rfl, rfl⟩,
    fun s u v => ⟨rfl, rfl, rfl⟩, fun d u v => ⟨rfl, rfl, rfl⟩,
    fun b u v => ⟨rfl, rfl, rfl⟩, fun fg u v => ⟨rfl, rfl, rfl⟩,
    fun r u v => ⟨rfl, rfl, rfl⟩, fun cb u v => ⟨rfl, rfl, rfl⟩⟩

/-- C10 (confirmed): `make_table` produces output completely independent of
its `warn_col` parameter; the body cells are styled by content alone, in any
column — a body cell receives the red warning style exactly when its text
contains the character sequence of the warning marker. -/
theorem makeTable_warn_iff :
    (∀ (headers : List String) (rows : List (List String)) (colWidths : List ℚ)
        (wc wc' : Option ℕ),
      makeTable headers rows colWidths wc = makeTable headers rows colWidths wc') ∧
    (∀ (headers : List String) (rows : List (List String)) (colWidths : List ℚ)
        (wc : Option ℕ),
      (makeTable headers rows colWidths wc).1 =
        (headers.map (fun h => StyledCell.mk h CellStyle.header)) ::
          rows.map (fun row => row.map styleCell)) ∧
    (∀ txt : String, (styleCell txt).style = CellStyle.warn ↔ warnSeq <:+: txt.toList) := by
  refine ⟨fun _ _ _ _ _ => rfl, fun _ _ _ _ => rfl, fun txt => ?_⟩
  rw [styleCell]
  by_cases h : containsSeq warnSeq txt.toList = true
  · rw [if_pos h]
    exact ⟨fun _ => (containsSeq_iff warnSeq txt.toList).mp h, fun _ => rfl⟩
  · rw [if_neg h]
    constructor
    · intro hst
      exact absurd hst (by simp)
    · intro hinf
      exact absurd ((containsSeq_iff warnSeq txt.toList).mpr hinf) h

end Omnifolio
